import Mathlib

/-!
Shallow embedding of the error-normalization core of the
elysia-http-problem-json repository, together with proofs of the frozen
claims about it.

Strings are modelled as lists of characters. JavaScript runtime values
that can appear in problem-document extension fields are modelled by the
inductive type Val. JavaScript objects are modelled as association lists
in insertion order; property assignment replaces the first occurrence of
the key in place, as JS assignment does, and object spread applies the
entries of the spread object one after the other, so a later entry for
the same key wins.

Sources embedded here:
  src/src/core/errors.ts      (ProblemError, toJSON, the HttpError catalog)
  src/src/core/index.ts       (unifiedErrorPlugin onError handler)
  src/unnamed/part_005        (httpProblemJsonPlugin onError handler)
  src/src/presets/hooks/db/guards.ts  (isDatabaseError)
  src/src/framework/error-system/hooks/db/mapper.ts
                              (mapDatabaseError, parseConstraint, helpers)
-/

/-- Character strings, modelled as lists of characters. -/
abbrev Str := List Char

/-- Lift a Lean string literal to the Str model. -/
def tl (s : String) : Str := s.toList

/-- JavaScript runtime values that matter to the embedded code: strings,
numbers, booleans, null, undefined, arrays and plain objects. -/
inductive Val where
  | str (s : Str)
  | num (n : Int)
  | bool (b : Bool)
  | null
  | undefinedV
  | arr (l : List Val)
  | obj (l : List (Str × Val))

/-- JavaScript truthiness of a value (NaN is not representable in the
integer number model and is therefore out of scope). -/
def truthy : Val → Bool
  | .str s => !s.isEmpty
  | .num n => n != 0
  | .bool b => b
  | .null => false
  | .undefinedV => false
  | .arr _ => true
  | .obj _ => true

/-- The result of the JavaScript typeof operator on a modelled value. -/
def typeofV : Val → Str
  | .str _ => tl "string"
  | .num _ => tl "number"
  | .bool _ => tl "boolean"
  | .null => tl "object"
  | .undefinedV => tl "undefined"
  | .arr _ => tl "object"
  | .obj _ => tl "object"

mutual

/-- JavaScript String(v) coercion for the modelled values. -/
def jsStringOf : Val → Str
  | .str s => s
  | .num n => tl (toString n)
  | .bool b => if b then tl "true" else tl "false"
  | .null => tl "null"
  | .undefinedV => tl "undefined"
  | .arr l => jsStringList l
  | .obj _ => tl "[object Object]"

/-- String coercion of an array joins the element coercions with commas. -/
def jsStringList : List Val → Str
  | [] => []
  | [v] => jsStringOf v
  | v :: rest => jsStringOf v ++ ',' :: jsStringList rest

end

/-- First-occurrence association-list lookup (JS property read on an
object whose keys are distinct). -/
def alookup : List (Str × Val) → Str → Option Val
  | [], _ => none
  | (k', v') :: rest, k => if k' = k then some v' else alookup rest k

/-- JS property assignment on an object: replace the first occurrence of
the key in place, or append the entry if the key is absent. -/
def setKey : List (Str × Val) → Str → Val → List (Str × Val)
  | [], k, v => [(k, v)]
  | (k', v') :: rest, k, v =>
      if k' = k then (k', v) :: rest else (k', v') :: setKey rest k v

/-- JS object spread of ext on top of d: assign each entry of ext onto d
in order, so entries of ext win over entries of d. -/
def mergeExt (d : List (Str × Val)) (ext : List (Str × Val)) : List (Str × Val) :=
  ext.foldl (fun acc kv => setKey acc kv.1 kv.2) d

/-- A problem document: the JS object produced by ProblemError.toJSON,
as an insertion-ordered association list. -/
abbrev Doc := List (Str × Val)

/-- JS property read on a document: the stored value, or undefined. -/
def jsGet (d : Doc) (k : Str) : Val := (alookup d k).getD .undefinedV

/-- JS property read on a Val: only plain objects carry the modelled
named properties; everything else yields undefined. -/
def jsProp (v : Val) (k : Str) : Val :=
  match v with
  | .obj l => jsGet l k
  | _ => .undefinedV

/-- Does the JS `in` operator find the key on the value (only plain
objects carry modelled named properties)? -/
def hasKey (v : Val) (k : Str) : Bool :=
  match v with
  | .obj l => (alookup l k).isSome
  | _ => false

/-- Is the first string an initial segment of the second? -/
def isPre : Str → Str → Bool
  | [], _ => true
  | _ :: _, [] => false
  | a :: as, b :: bs => a = b && isPre as bs

/-- JS String.prototype.includes: does l contain sub as a contiguous
substring? -/
def hasSub (sub : Str) : Str → Bool
  | [] => sub.isEmpty
  | a :: rest => isPre sub (a :: rest) || hasSub sub rest

/-- JS String.prototype.endsWith-style test used to characterize the
phrase templates: is suf a final segment of l? -/
def endsW (l suf : Str) : Bool := isPre suf.reverse l.reverse

/-- ProblemError from src/src/core/errors.ts: the five reserved RFC 9457
members plus the separate extensions record. The source field named
instance is renamed instanceRef because instance is a Lean keyword.
The constructor defaults (type defaults to about:blank, extensions to
the empty record) are applied at each construction site. -/
structure ProblemError where
  type : Str
  title : Str
  status : Int
  detail : Option Str
  instanceRef : Option Str
  extensions : List (Str × Val)

/-- The Error message set by the ProblemError constructor via
super(detail or title): detail when it is a truthy string, else title. -/
def ProblemError.msgStr (p : ProblemError) : Str :=
  match p.detail with
  | some d => if d.isEmpty then p.title else d
  | none => p.title

/-- The reserved part of toJSON: the object literal holding type, title
and status, with detail and instance included only when truthy. -/
def reservedPart (p : ProblemError) : Doc :=
  [(tl "type", .str p.type), (tl "title", .str p.title), (tl "status", .num p.status)]
    ++ (match p.detail with
        | some d => if d.isEmpty then [] else [(tl "detail", Val.str d)]
        | none => [])
    ++ (match p.instanceRef with
        | some i => if i.isEmpty then [] else [(tl "instance", Val.str i)]
        | none => [])

/-- ProblemError.toJSON: the reserved keys first, then the extensions
spread on top of them. -/
def ProblemError.toJSON (p : ProblemError) : Doc :=
  mergeExt (reservedPart p) p.extensions

/-- Catalog entry BadRequest/400 from src/src/core/errors.ts. -/
def HttpError.BadRequest (detail : Option Str) (ext : List (Str × Val)) : ProblemError :=
  ⟨tl "https://httpstatuses.com/400", tl "Bad Request", 400, detail, none, ext⟩

/-- Catalog entry Unauthorized/401. -/
def HttpError.Unauthorized (detail : Option Str) (ext : List (Str × Val)) : ProblemError :=
  ⟨tl "https://httpstatuses.com/401", tl "Unauthorized", 401, detail, none, ext⟩

/-- Catalog entry PaymentRequired/402. -/
def HttpError.PaymentRequired (detail : Option Str) (ext : List (Str × Val)) : ProblemError :=
  ⟨tl "https://httpstatuses.com/402", tl "Payment Required", 402, detail, none, ext⟩

/-- Catalog entry Forbidden/403. -/
def HttpError.Forbidden (detail : Option Str) (ext : List (Str × Val)) : ProblemError :=
  ⟨tl "https://httpstatuses.com/403", tl "Forbidden", 403, detail, none, ext⟩

/-- Catalog entry NotFound/404. -/
def HttpError.NotFound (detail : Option Str) (ext : List (Str × Val)) : ProblemError :=
  ⟨tl "https://httpstatuses.com/404", tl "Not Found", 404, detail, none, ext⟩

/-- Catalog entry MethodNotAllowed/405. -/
def HttpError.MethodNotAllowed (detail : Option Str) (ext : List (Str × Val)) : ProblemError :=
  ⟨tl "https://httpstatuses.com/405", tl "Method Not Allowed", 405, detail, none, ext⟩

/-- Catalog entry NotAcceptable/406. -/
def HttpError.NotAcceptable (detail : Option Str) (ext : List (Str × Val)) : ProblemError :=
  ⟨tl "https://httpstatuses.com/406", tl "Not Acceptable", 406, detail, none, ext⟩

/-- Catalog entry Conflict/409. -/
def HttpError.Conflict (detail : Option Str) (ext : List (Str × Val)) : ProblemError :=
  ⟨tl "https://httpstatuses.com/409", tl "Conflict", 409, detail, none, ext⟩

/-- Catalog entry InternalServerError/500. -/
def HttpError.InternalServerError (detail : Option Str) (ext : List (Str × Val)) : ProblemError :=
  ⟨tl "https://httpstatuses.com/500", tl "Internal Server Error", 500, detail, none, ext⟩

/-- Catalog entry NotImplemented/501. -/
def HttpError.NotImplemented (detail : Option Str) (ext : List (Str × Val)) : ProblemError :=
  ⟨tl "https://httpstatuses.com/501", tl "Not Implemented", 501, detail, none, ext⟩

/-- Catalog entry BadGateway/502. -/
def HttpError.BadGateway (detail : Option Str) (ext : List (Str × Val)) : ProblemError :=
  ⟨tl "https://httpstatuses.com/502", tl "Bad Gateway", 502, detail, none, ext⟩

/-- Catalog entry ServiceUnavailable/503. -/
def HttpError.ServiceUnavailable (detail : Option Str) (ext : List (Str × Val)) : ProblemError :=
  ⟨tl "https://httpstatuses.com/503", tl "Service Unavailable", 503, detail, none, ext⟩

/-- Catalog entry GatewayTimeout/504. -/
def HttpError.GatewayTimeout (detail : Option Str) (ext : List (Str × Val)) : ProblemError :=
  ⟨tl "https://httpstatuses.com/504", tl "Gateway Timeout", 504, detail, none, ext⟩

/-- One entry of the framework validation failure list consumed by the
VALIDATION branch: the fields read off each element of error.all. -/
structure VItem where
  path : Val
  message : Val
  value : Val

/-- The opaque error value handed to the onError handler. A thrown
ProblemError, a generic Error carrying the fields the handlers read
(message, all, key, property, expected; an absent field is undefined),
or a non-Error value with its JS string form determined by Val. -/
inductive ErrVal where
  | problem (p : ProblemError)
  | err (message : Str) (all : Option (List VItem)) (key : Val)
      (property : Val) (expected : Val)
  | nonErr (v : Val)

/-- instanceof ProblemError. -/
def ErrVal.isProblem : ErrVal → Bool
  | .problem _ => true
  | _ => false

/-- Property read error.all (undefined except on the modelled Error). -/
def ErrVal.allF : ErrVal → Option (List VItem)
  | .err _ a _ _ _ => a
  | _ => none

/-- Property read error.key. -/
def ErrVal.keyF : ErrVal → Val
  | .err _ _ k _ _ => k
  | _ => .undefinedV

/-- Property read error.property. -/
def ErrVal.propertyF : ErrVal → Val
  | .err _ _ _ pr _ => pr
  | _ => .undefinedV

/-- Property read error.expected. -/
def ErrVal.expectedF : ErrVal → Val
  | .err _ _ _ _ ex => ex
  | _ => .undefinedV

/-- Property read error.message as a JS value: the message of an Error,
the message property of a thrown plain object, undefined otherwise. -/
def ErrVal.messageF : ErrVal → Val
  | .problem p => .str p.msgStr
  | .err m _ _ _ _ => .str m
  | .nonErr v => jsProp v (tl "message")

/-- The default-branch detail: error.message when error instanceof
Error (a ProblemError is an Error subclass), else String(error). -/
def messageOrString : ErrVal → Str
  | .problem p => p.msgStr
  | .err m _ _ _ _ => m
  | .nonErr v => jsStringOf v

/-- ErrorContext from src/src/core/index.ts, without the raw request
handle (it is only forwarded, never read, by the embedded code). -/
structure Ctx where
  path : Str
  code : Str
  error : ErrVal

/-- HttpProblemJsonOptions from src/src/core/types.ts. The transform
hook returns ok (some p) when it returns a ProblemError instance,
ok none when it returns null, undefined or any non-ProblemError value
(the handler filters with instanceof), and error e when it throws e.
The onBeforeRespond listen hook is invoked only for side effects after
the response JSON is fully computed and cannot change any modelled
output, so it is not represented. -/
structure Options where
  typeBaseUrl : Option Str
  transform : Option (ErrVal → Ctx → Except Val (Option ProblemError))

/-- Truthiness of the optional typeBaseUrl string option. -/
def truthyS : Option Str → Bool
  | some s => !s.isEmpty
  | none => false

/-- The errors extension value built by the VALIDATION branch:
error.all?.map of the three projected fields; undefined when all is
absent. -/
def valErrorsVal (e : ErrVal) : Val :=
  match e.allF with
  | some items =>
      .arr (items.map fun i =>
        .obj [(tl "path", i.path), (tl "message", i.message), (tl "value", i.value)])
  | none => .undefinedV

/-- The TypeError raised when the handler calls toJSON on a value that
was cast to ProblemError but is not one (the PROBLEM_ERROR switch case
reached with a non-ProblemError error; unreachable under the framework
contract that ties that code to instances of the registered class). -/
def castTypeError : Val := .str (tl "TypeError: problem.toJSON is not a function")

/-- Phase 1 of the unifiedErrorPlugin onError handler from
src/src/core/index.ts: the user transform hook, when present, is
called with the error and context; its thrown exceptions propagate,
there is no try/catch in the source. -/
def runTransform (opts : Options) (error : ErrVal) (ctx : Ctx) :
    Except Val (Option ProblemError) :=
  match opts.transform with
  | some t => t error ctx
  | none => .ok none

/-- The phase-2 default handling of the unifiedErrorPlugin onError
handler: the instanceof ProblemError shortcut, then the switch on the
framework code. -/
def defaultClassify (code : Str) (error : ErrVal) (path : Str) :
    Except Val ProblemError :=
  match error with
  | .problem p => .ok p
  | _ =>
      if code = tl "PROBLEM_ERROR" then
        .error castTypeError
      else if code = tl "VALIDATION" then
        .ok (HttpError.BadRequest (some (tl "Validation Failed"))
          [(tl "errors", valErrorsVal error)])
      else if code = tl "NOT_FOUND" then
        .ok (HttpError.NotFound (some (tl "Resource not found: " ++ path)) [])
      else if code = tl "PARSE" then
        .ok (HttpError.BadRequest
          (some (tl "Parse error: " ++ jsStringOf error.messageF)) [])
      else if code = tl "INVALID_COOKIE_SIGNATURE" then
        .ok (HttpError.BadRequest (some (tl "Invalid cookie signature"))
          [(tl "key", error.keyF)])
      else
        .ok (HttpError.InternalServerError (some (messageOrString error)) [])

/-- Phases 1 and 2 of the unifiedErrorPlugin onError handler: a
ProblemError returned by the transform hook wins, a thrown transform
exception propagates, and otherwise the default handling decides. -/
def classify (opts : Options) (code : Str) (error : ErrVal) (path : Str) :
    Except Val ProblemError :=
  match runTransform opts error ⟨path, code, error⟩ with
  | .error e => .error e
  | .ok (some p) => .ok p
  | .ok none => defaultClassify code error path

/-- The finished response: the JSON document sent as body, the status
value passed to the Response constructor (read back off the document),
and the fixed content type header. Pass-through headers queued by the
framework are forwarded unchanged and are not modelled. -/
structure HResponse where
  body : Doc
  statusV : Val
  contentType : Str

/-- Is the current document type the default placeholder: the literal
about:blank, or a string containing the httpstatuses.com host? A
non-string type never matches (the source compares with === first, so
its types say this read is a string). -/
def typeIsDefault (v : Val) : Bool :=
  match v with
  | .str s => s = tl "about:blank" || hasSub (tl "httpstatuses.com") s
  | _ => false

/-- The document right after phase 3 forces instance to the request
path (json.instance = path), before the type rewrite is considered. -/
def docWithInstance (p : ProblemError) (path : Str) : Doc :=
  setKey p.toJSON (tl "instance") (.str path)

/-- Phase 3 of the onError handler: render the chosen problem, force
instance to the request path, rewrite a default type when typeBaseUrl
is configured, then build the response with status json.status and the
problem+json content type. Shared verbatim by unifiedErrorPlugin and
httpProblemJsonPlugin. -/
def finalize (p : ProblemError) (path : Str) (opts : Options) : HResponse :=
  let json1 := docWithInstance p path
  let json2 :=
    if truthyS opts.typeBaseUrl && typeIsDefault (jsGet json1 (tl "type")) then
      setKey json1 (tl "type")
        (.str ((opts.typeBaseUrl.getD []) ++ '/' :: jsStringOf (jsGet json1 (tl "status"))))
    else json1
  ⟨json2, jsGet json2 (tl "status"), tl "application/problem+json; charset=utf-8"⟩

/-- The whole unifiedErrorPlugin onError handler: classification then
finalization; a thrown exception (from the transform hook or the
unreachable cast case) escapes the handler. -/
def unifiedHandle (opts : Options) (code : Str) (error : ErrVal) (path : Str) :
    Except Val HResponse :=
  (classify opts code error path).map (fun p => finalize p path opts)

/-- The switch of the httpProblemJsonPlugin onError handler from
src/unnamed/part_005: no transform hook and no instanceof fallback, but
an INVALID_FILE_TYPE case; message texts differ from the unified
plugin. -/
def httpClassify (code : Str) (error : ErrVal) (path : Str) :
    Except Val ProblemError :=
  if code = tl "PROBLEM_ERROR" then
    match error with
    | .problem p => .ok p
    | _ => .error castTypeError
  else if code = tl "VALIDATION" then
    .ok (HttpError.BadRequest (some (tl "Validation Failed"))
      [(tl "errors", valErrorsVal error)])
  else if code = tl "NOT_FOUND" then
    .ok (HttpError.NotFound
      (some (tl "The requested resource " ++ path ++ tl " was not found")) [])
  else if code = tl "PARSE" then
    .ok (HttpError.BadRequest
      (some (tl "The request could not be parsed: " ++ jsStringOf error.messageF)) [])
  else if code = tl "INVALID_COOKIE_SIGNATURE" then
    .ok (HttpError.BadRequest
      (some (tl "The provided cookie signature is invalid")) [(tl "key", error.keyF)])
  else if code = tl "INVALID_FILE_TYPE" then
    .ok (HttpError.BadRequest
      (match error.messageF with | .str s => some s | _ => none)
      [(tl "property", error.propertyF), (tl "expected", error.expectedF)])
  else
    .ok (HttpError.InternalServerError (some (messageOrString error)) [])

/-- The whole httpProblemJsonPlugin onError handler. -/
def httpHandle (typeBaseUrl : Option Str) (code : Str) (error : ErrVal) (path : Str) :
    Except Val HResponse :=
  (httpClassify code error path).map (fun p => finalize p path ⟨typeBaseUrl, none⟩)

/-- A character of the JS word class backslash-w: ASCII letters, digits
and underscore. -/
def isWordChar (c : Char) : Bool := c.isAlphanum || c = '_'

/-- A character allowed by the SQL-state pattern: ASCII digit or
uppercase letter. -/
def isCodeChar (c : Char) : Bool := c.isDigit || c.isUpper

/-- The test of POSTGRES_ERROR_CODE_REGEX, the anchored pattern of five
characters drawn from digits and uppercase letters. -/
def codeRegexTest (s : Str) : Bool := s.length = 5 && s.all isCodeChar

/-- isDatabaseError from src/src/presets/hooks/db/guards.ts: the
duck-typed test that error is a truthy object, has a truthy
object-typed cause property, whose code property is a truthy string
matching the SQL-state pattern. Each guard mirrors one early return of
the source; the function is total over Val, so it never throws. -/
def isDatabaseError (v : Val) : Bool :=
  if !(truthy v) || typeofV v != tl "object" then false
  else
    let cause := jsProp v (tl "cause")
    if !(hasKey v (tl "cause") && truthy cause) || typeofV cause != tl "object" then false
    else
      let code := jsProp cause (tl "code")
      if !(truthy code) || typeofV code != tl "string" then false
      else
        match code with
        | .str s => codeRegexTest s
        | _ => false

/-- The inner PostgresError fields that mapDatabaseError reads; the
remaining interface fields of guards.ts (severity, hint, table, ...)
are never consumed by the embedded code. -/
structure PgErr where
  code : Str
  detail : Option Str
  constraint : Str
  column : Option Str
  message : Str

/-- The outer Drizzle driver error: the wrapped cause (query text and
bound parameters are only read by the logging collaborator). -/
structure DrizzleErrorM where
  cause : PgErr

/-- getPostgresError from guards.ts. -/
def getPostgresError (e : DrizzleErrorM) : PgErr := e.cause

/-- toTitleCase from mapper.ts: split on single spaces, uppercase the
first character of each word, join with spaces. -/
def capitalizeW : Str → Str
  | [] => []
  | c :: cs => c.toUpper :: cs

/-- JS split on the space character, keeping empty fragments. -/
def splitOnSpace : Str → List Str
  | [] => [[]]
  | c :: rest =>
    match splitOnSpace rest with
    | [] => [[]]
    | w :: ws => if c = ' ' then [] :: w :: ws else (c :: w) :: ws

/-- JS Array.prototype.join with a single space. -/
def joinSpace : List Str → Str
  | [] => []
  | [w] => w
  | w :: ws => w ++ ' ' :: joinSpace ws

/-- toTitleCase from mapper.ts. -/
def toTitleCase (s : Str) : Str := joinSpace ((splitOnSpace s).map capitalizeW)

/-- The capture of the lazy group in the column-name regex: the
characters before the first closing quote, failing when a newline or
the end of the string comes first (the dot does not match newlines). -/
def captureQuoted : Str → Option Str
  | [] => none
  | c :: rest =>
    if c = '"' then some []
    else if c = '\n' then none
    else (captureQuoted rest).map (c :: ·)

/-- The literal part of the column-name regex of
parseColumnFromMessage. -/
def colPat : Str := tl "null value in column \""

/-- The regex engine scan for parseColumnFromMessage: try every start
position from the left; at a position where the literal matches, the
capture must be closed by a quote on the same line, otherwise the scan
moves on. -/
def scanColMsg : Str → Option Str
  | [] => none
  | c :: rest =>
    if isPre colPat (c :: rest) then
      match captureQuoted ((c :: rest).drop colPat.length) with
      | some cap => some cap
      | none => scanColMsg rest
    else scanColMsg rest

/-- parseColumnFromMessage from mapper.ts: the captured column name, or
null when there is no match or the capture is empty (the source
coalesces a falsy capture to null). -/
def parseColumnFromMessage (msg : Str) : Option Str :=
  match scanColMsg msg with
  | some cap => if cap.isEmpty then none else some cap
  | none => none

/-- JS whitespace for the trim and backslash-s steps of stripQuery. -/
def isWs (c : Char) : Bool :=
  c = ' ' || c = '\t' || c = '\n' || c = '\r' || c = '\x0b' || c = '\x0c'

/-- JS String.prototype.trim on the model. -/
def trimStr (l : Str) : Str :=
  ((l.dropWhile isWs).reverse.dropWhile isWs).reverse

/-- stripQuery from mapper.ts: empty for an empty message, else the
first line with a leading Failed query: marker and its trailing
whitespace removed, trimmed; empty when the first line is empty. -/
def stripQuery (msg : Str) : Str :=
  if msg.isEmpty then []
  else
    let firstLine := msg.takeWhile (· != '\n')
    if firstLine.isEmpty then []
    else
      let marker := tl "Failed query:"
      trimStr (if isPre marker firstLine
        then (firstLine.drop marker.length).dropWhile isWs
        else firstLine)

/-- The group-1 capture of the constraint regex at one start position:
the rest of the string after the leading underscore must be a nonempty
word-character run followed by at most one of the literal suffixes
_fkey, _key or _idx; the lazy quantifier keeps the run minimal, so the
longest suffix that fits is stripped. -/
def fieldFromRest (r : Str) : Option Str :=
  if endsW r (tl "_fkey") ∧ 5 < r.length ∧ (r.take (r.length - 5)).all isWordChar then
    some (r.take (r.length - 5))
  else if (endsW r (tl "_key") ∨ endsW r (tl "_idx")) ∧ 4 < r.length
      ∧ (r.take (r.length - 4)).all isWordChar then
    some (r.take (r.length - 4))
  else if ¬r.isEmpty ∧ r.all isWordChar then some r
  else none

/-- The whole constraint regex match: the leftmost underscore from
which the anchored rest matches wins, and a failed start falls through
to the next position, as the regex engine does. -/
def matchField : Str → Option Str
  | [] => none
  | c :: rest =>
    if c = '_' then
      match fieldFromRest rest with
      | some f => some f
      | none => matchField rest
    else matchField rest

/-- The pretty field used by every branch of parseConstraint: the
captured field with underscores turned to spaces and words
title-cased, or (through the nullish coalescing in the source) the raw
constraint name when the regex did not capture a truthy field. -/
def prettyOrRaw (c : Str) : Str :=
  match matchField c with
  | some f => if f.isEmpty then c else toTitleCase (f.map fun ch => if ch = '_' then ' ' else ch)
  | none => c

/-- parseConstraint from mapper.ts: generic phrase for an empty name,
else one of the three phrase templates, selected by substring tests
with includes (not by suffix tests). -/
def parseConstraint (c : Str) : Str :=
  if c.isEmpty then tl "违反数据库约束"
  else if hasSub (tl "_key") c then prettyOrRaw c ++ tl " 必须唯一"
  else if hasSub (tl "_fkey") c then prettyOrRaw c ++ tl " 必须引用有效记录"
  else tl "在 " ++ prettyOrRaw c ++ tl " 上违反约束"

/-- The falsy-coalescing JS or of two strings. -/
def jsOr (a b : Str) : Str := if a.isEmpty then b else a

/-- The falsy-coalescing JS or of an optional string and a string. -/
def jsOrS (a : Option Str) (b : Str) : Str :=
  match a with
  | some s => if s.isEmpty then b else s
  | none => b

/-- mapDatabaseError from mapper.ts: dispatch on the SQL-state code of
the wrapped cause; every result carries the x-pg-code and x-constraint
extensions; unrecognized codes reach the default InternalServerError
branch, so the mapper is total. -/
def mapDatabaseError (e : DrizzleErrorM) : ProblemError :=
  let pg := getPostgresError e
  let code := pg.code
  let detail := pg.detail
  let constraint := pg.constraint
  let rawMsg := pg.message
  let column := pg.column.getD []
  let extensions := [(tl "x-pg-code", Val.str code), (tl "x-constraint", Val.str constraint)]
  if code = tl "23502" then
    HttpError.BadRequest
      (some (tl "缺少必填字段: "
        ++ jsOr column (jsOrS (parseColumnFromMessage rawMsg) (tl "必填字段为空"))))
      extensions
  else if code = tl "23503" then
    HttpError.BadRequest
      (some (tl "引用错误: 该记录正在被使用，无法删除或修改 ("
        ++ parseConstraint constraint ++ tl ")"))
      extensions
  else if code = tl "23505" then
    HttpError.Conflict
      (some (tl "重复数据: " ++ jsOr (parseConstraint constraint) (tl "该记录已存在")))
      extensions
  else if code = tl "23514" then
    HttpError.BadRequest
      (some (tl "数据验证失败: " ++ jsOrS detail (tl "Check constraint violation")))
      extensions
  else if code = tl "40001" then
    HttpError.ServiceUnavailable (some (tl "事务冲突，请重试")) extensions
  else if code = tl "40P01" then
    HttpError.ServiceUnavailable (some (tl "数据库忙，请稍后重试")) extensions
  else if code ∈ [tl "53000", tl "53100", tl "53200", tl "53300", tl "53400"] then
    HttpError.ServiceUnavailable (some (tl "数据库资源不足，请稍后重试")) extensions
  else if code ∈ [tl "58000", tl "58030"] then
    HttpError.ServiceUnavailable (some (tl "数据库系统错误，请联系管理员")) extensions
  else if code ∈ [tl "08000", tl "08001", tl "08003", tl "08004", tl "08006", tl "08007"] then
    HttpError.ServiceUnavailable (some (tl "数据库连接失败，请稍后重试")) extensions
  else
    HttpError.InternalServerError
      (some (tl "数据库错误 [" ++ code ++ tl "]: " ++ stripQuery rawMsg))
      extensions

/-- The framework codes the unified switch names explicitly; everything
else falls to its default branch. -/
def knownCodes : List Str :=
  [tl "PROBLEM_ERROR", tl "VALIDATION", tl "NOT_FOUND", tl "PARSE",
   tl "INVALID_COOKIE_SIGNATURE"]

/-- The transform hook made no selection: it is absent, or it returned
without producing a ProblemError instance. -/
def transformNoMatch (opts : Options) (e : ErrVal) (ctx : Ctx) : Prop :=
  match opts.transform with
  | none => True
  | some t => t e ctx = .ok none

/-- A transform hook that always throws. -/
def boomT : ErrVal → Ctx → Except Val (Option ProblemError) :=
  fun _ _ => .error (.str (tl "boom"))

/-- Options carrying the always-throwing transform hook. -/
def optsBoom : Options := ⟨none, some boomT⟩

/-- Is the value a (non-null) JS object, arrays included? -/
def isObjLike : Val → Bool
  | .obj _ => true
  | .arr _ => true
  | _ => false

/-- The shape the specification describes for isDatabaseError: an
object whose non-null object-valued cause has a string code of five
characters drawn from digits and uppercase letters. -/
def specDBShape (v : Val) : Prop :=
  isObjLike v = true ∧
  isObjLike (jsProp v (tl "cause")) = true ∧
  ∃ s : Str, jsProp (jsProp v (tl "cause")) (tl "code") = .str s ∧
    s.length = 5 ∧ s.all isCodeChar = true

/-- The status table exactly as the claim states it: 23502, 23503 and
23514 map to 400, 23505 to 409, the transaction, resource, system and
connection codes to 503, and every other code to 500. -/
def specDbStatus (code : Str) : Int :=
  if code ∈ [tl "23502", tl "23503", tl "23514"] then 400
  else if code = tl "23505" then 409
  else if code ∈ [tl "40001", tl "40P01", tl "53000", tl "53100", tl "53200",
      tl "53300", tl "53400", tl "58000", tl "58030", tl "08000", tl "08001",
      tl "08003", tl "08004", tl "08006", tl "08007"] then 503
  else 500

/-- Is an Except value in the ok state? -/
def exIsOk {ε α : Type} : Except ε α → Bool
  | .ok _ => true
  | .error _ => false

/-- The last-entry-wins lookup over a spread source object. -/
def lastLook (l : List (Str × Val)) (k : Str) : Option Val := alookup l.reverse k

example : (HttpError.NotFound (some (tl "x")) []).status = 404 := rfl

example :
    alookup (HttpError.BadRequest (some (tl "d")) [(tl "status", .num 7)]).toJSON (tl "status")
      = some (.num 7) := rfl

example :
    (classify ⟨none, none⟩ (tl "NOT_FOUND") (.nonErr .null) (tl "/u")).map
      (fun p => p.status) = .ok 404 := rfl

example :
    (httpClassify (tl "INVALID_FILE_TYPE")
      (.err (tl "m") none .undefinedV (.str (tl "f")) (.str (tl "png"))) (tl "/u")).map
      (fun p => p.status) = .ok 400 := rfl

example : parseConstraint (tl "users_email_key") = tl "Email 必须唯一" := by decide
example : parseConstraint (tl "users_email_unique") = tl "在 Email Unique 上违反约束" := by decide
example : parseConstraint [] = tl "违反数据库约束" := by decide
example : parseConstraint (tl "a_key_idx") = tl "Key 必须唯一" := by decide
example : parseConstraint (tl "orders_user_id_fkey") = tl "User Id 必须引用有效记录" := by decide
example :
    (mapDatabaseError ⟨⟨tl "23505", none, tl "users_email_key", none, tl "m"⟩⟩).status
      = 409 := by decide
example : isDatabaseError (.obj [(tl "cause", .obj [(tl "code", .str (tl "23505"))])]) = true := by decide
example : isDatabaseError (.obj [(tl "cause", .obj [(tl "code", .str (tl "2350"))])]) = false := by decide
example : isDatabaseError .null = false := by decide

theorem alookup_setKey (d : List (Str × Val)) (k : Str) (v : Val) (k' : Str) :
    alookup (setKey d k v) k' = if k = k' then some v else alookup d k' := by
  induction d with
  | nil => simp [setKey, alookup]
  | cons hd rest ih =>
    obtain ⟨k₀, v₀⟩ := hd
    by_cases h0 : k₀ = k
    · subst h0
      by_cases h1 : k₀ = k'
      · subst h1
        simp [setKey, alookup]
      · simp [setKey, alookup, h1]
    · by_cases h1 : k₀ = k'
      · subst h1
        have : ¬k = k₀ := fun h => h0 h.symm
        simp [setKey, alookup, h0, this]
      · simp [setKey, alookup, h0, h1, ih]

theorem alookup_append (l₁ l₂ : List (Str × Val)) (k : Str) :
    alookup (l₁ ++ l₂) k =
      match alookup l₁ k with
      | some v => some v
      | none => alookup l₂ k := by
  induction l₁ with
  | nil => simp [alookup]
  | cons hd rest ih =>
    obtain ⟨k₀, v₀⟩ := hd
    by_cases h : k₀ = k
    · simp [alookup, h]
    · simp [alookup, h, ih]

theorem alookup_mergeExt (d ext : List (Str × Val)) (k : Str) :
    alookup (mergeExt d ext) k =
      match lastLook ext k with
      | some v => some v
      | none => alookup d k := by
  induction ext generalizing d with
  | nil => simp [mergeExt, lastLook, alookup]
  | cons hd rest ih =>
    obtain ⟨k₀, v₀⟩ := hd
    have step : mergeExt d ((k₀, v₀) :: rest) = mergeExt (setKey d k₀ v₀) rest := rfl
    rw [step, ih]
    have hrev : lastLook ((k₀, v₀) :: rest) k
        = match alookup rest.reverse k with
          | some v => some v
          | none => alookup [(k₀, v₀)] k := by
      simp only [lastLook, List.reverse_cons]
      exact alookup_append rest.reverse [(k₀, v₀)] k
    rw [hrev]
    rcases hr : alookup rest.reverse k with _ | v
    · simp only [lastLook, hr, alookup_setKey]
      by_cases h : k₀ = k
      · simp [alookup, h]
      · simp [alookup, h]
    · simp [lastLook, hr]

theorem alookup_eq_none_of_not_mem (l : List (Str × Val)) (k : Str)
    (h : k ∉ l.map Prod.fst) : alookup l k = none := by
  induction l with
  | nil => rfl
  | cons hd rest ih =>
    obtain ⟨k₀, v₀⟩ := hd
    simp only [List.map_cons, List.mem_cons] at h
    push_neg at h
    have hne : k₀ ≠ k := fun he => h.1 he.symm
    simp [alookup, hne, ih h.2]

theorem alookup_of_mem_nodup (l : List (Str × Val)) (k : Str) (v : Val)
    (hnd : (l.map Prod.fst).Nodup) (hm : (k, v) ∈ l) : alookup l k = some v := by
  induction l with
  | nil => cases hm
  | cons hd rest ih =>
    obtain ⟨k₀, v₀⟩ := hd
    simp only [List.map_cons, List.nodup_cons] at hnd
    rcases List.mem_cons.mp hm with he | hm'
    · rw [Prod.ext_iff] at he
      obtain ⟨hk, hv⟩ := he
      dsimp only at hk hv
      subst hk
      subst hv
      simp [alookup]
    · have hk0 : k₀ ≠ k := by
        intro he
        subst he
        exact hnd.1 (List.mem_map_of_mem Prod.fst hm')
      simp [alookup, hk0, ih hnd.2 hm']

theorem lastLook_of_mem_nodup (l : List (Str × Val)) (k : Str) (v : Val)
    (hnd : (l.map Prod.fst).Nodup) (hm : (k, v) ∈ l) : lastLook l k = some v := by
  have hnd' : (l.reverse.map Prod.fst).Nodup := by
    rw [List.map_reverse]
    exact List.nodup_reverse.mpr hnd
  exact alookup_of_mem_nodup l.reverse k v hnd' (List.mem_reverse.mpr hm)

theorem lastLook_eq_none_of_not_mem (l : List (Str × Val)) (k : Str)
    (h : k ∉ l.map Prod.fst) : lastLook l k = none := by
  apply alookup_eq_none_of_not_mem
  rw [List.map_reverse]
  intro hc
  exact h (List.mem_reverse.mp hc)

theorem alookup_reservedPart_type (p : ProblemError) :
    alookup (reservedPart p) (tl "type") = some (.str p.type) := rfl

theorem alookup_reservedPart_title (p : ProblemError) :
    alookup (reservedPart p) (tl "title") = some (.str p.title) := rfl

theorem alookup_reservedPart_status (p : ProblemError) :
    alookup (reservedPart p) (tl "status") = some (.num p.status) := rfl

theorem alookup_toJSON (p : ProblemError) (k : Str) :
    alookup p.toJSON k =
      match lastLook p.extensions k with
      | some v => some v
      | none => alookup (reservedPart p) k :=
  alookup_mergeExt (reservedPart p) p.extensions k

theorem alookup_toJSON_status_isSome (p : ProblemError) :
    (alookup p.toJSON (tl "status")).isSome = true := by
  rw [alookup_toJSON]
  rcases h : lastLook p.extensions (tl "status") with _ | v
  · simp [alookup_reservedPart_status]
  · simp

theorem finalize_body_instance (p : ProblemError) (path : Str) (opts : Options) :
    jsGet (finalize p path opts).body (tl "instance") = .str path := by
  unfold finalize
  dsimp only
  split
  · simp +decide [jsGet, docWithInstance, alookup_setKey]
  · simp +decide [jsGet, docWithInstance, alookup_setKey]

theorem finalize_statusV (p : ProblemError) (path : Str) (opts : Options) :
    (finalize p path opts).statusV = jsGet (finalize p path opts).body (tl "status") := rfl

theorem finalize_body_status_lookup (p : ProblemError) (path : Str) (opts : Options) :
    alookup (finalize p path opts).body (tl "status") = alookup p.toJSON (tl "status") := by
  unfold finalize
  dsimp only
  split
  · simp +decide [docWithInstance, alookup_setKey]
  · simp +decide [docWithInstance, alookup_setKey]

theorem finalize_status_isSome (p : ProblemError) (path : Str) (opts : Options) :
    (alookup (finalize p path opts).body (tl "status")).isSome = true := by
  rw [finalize_body_status_lookup]
  exact alookup_toJSON_status_isSome p

theorem isPre_append_self (s t : Str) : isPre s (s ++ t) = true := by
  induction s with
  | nil => rfl
  | cons c rest ih => simp [isPre, ih]

theorem endsW_append_self (x s : Str) : endsW (x ++ s) s = true := by
  unfold endsW
  rw [List.reverse_append]
  exact isPre_append_self s.reverse x.reverse

theorem endsW_append_eq_false (x s t : Str) (c c' : Char) (sr tr : Str)
    (hs : s.reverse = c :: sr) (ht : t.reverse = c' :: tr) (hne : c' ≠ c) :
    endsW (x ++ s) t = false := by
  unfold endsW
  rw [List.reverse_append, hs, ht]
  simp [isPre, hne]

/-- Claim C2: rendering a ProblemError merges the extensions mapping
after the five reserved keys, so an extension entry whose name equals a
reserved key overrides the reserved value in the rendered document,
while every key without an extension entry keeps the value contributed
by the reserved part. -/
theorem C2_extensions_override_reserved (p : ProblemError)
    (hnd : (p.extensions.map Prod.fst).Nodup) :
    (∀ k v, (k, v) ∈ p.extensions → alookup p.toJSON k = some v) ∧
    (∀ k, k ∉ p.extensions.map Prod.fst →
      alookup p.toJSON k = alookup (reservedPart p) k) := by
  constructor
  · intro k v hm
    rw [alookup_toJSON, lastLook_of_mem_nodup _ _ _ hnd hm]
  · intro k hk
    rw [alookup_toJSON, lastLook_eq_none_of_not_mem _ _ hk]

/-- Witness for C2 at a concrete ProblemError: a title extension
overrides the reserved title, and the untouched type keeps its
reserved value. -/
theorem C2_extensions_override_reserved_witness :
    alookup (HttpError.BadRequest (some (tl "d"))
        [(tl "title", .str (tl "Other"))]).toJSON (tl "title")
      = some (.str (tl "Other")) ∧
    alookup (HttpError.BadRequest (some (tl "d"))
        [(tl "title", .str (tl "Other"))]).toJSON (tl "type")
      = alookup (reservedPart (HttpError.BadRequest (some (tl "d"))
        [(tl "title", .str (tl "Other"))])) (tl "type") :=
  ⟨(C2_extensions_override_reserved _ (by decide)).1 _ _ (List.mem_cons_self _ _),
   (C2_extensions_override_reserved _ (by decide)).2 _ (by decide)⟩

/-- Claim C3: for every error the unified pipeline turns into a
response, the status value given to the Response constructor equals the
status field of the JSON body that is sent, and that field is always
present; this holds in particular when a status extension entry
overrode the constructor status during the merge, because the response
status is read back off the merged document. -/
theorem C3_response_status_matches_body (opts : Options) (code : Str)
    (e : ErrVal) (path : Str) (r : HResponse)
    (h : unifiedHandle opts code e path = .ok r) :
    r.statusV = jsGet r.body (tl "status") ∧
    (alookup r.body (tl "status")).isSome = true := by
  unfold unifiedHandle at h
  rcases hc : classify opts code e path with ex | p
  · rw [hc] at h
    simp [Except.map] at h
  · rw [hc] at h
    simp only [Except.map, Except.ok.injEq] at h
    subst h
    exact ⟨finalize_statusV p path opts, finalize_status_isSome p path opts⟩

/-- Witness for C3 at a concrete handled error whose thrown
ProblemError smuggles a status override in through an extension. -/
theorem C3_response_status_matches_body_witness :
    (finalize ⟨tl "about:blank", tl "T", 404, none, none,
        [(tl "status", .num 999)]⟩ (tl "/w3") ⟨none, none⟩).statusV
      = jsGet (finalize ⟨tl "about:blank", tl "T", 404, none, none,
        [(tl "status", .num 999)]⟩ (tl "/w3") ⟨none, none⟩).body (tl "status") ∧
    (alookup (finalize ⟨tl "about:blank", tl "T", 404, none, none,
        [(tl "status", .num 999)]⟩ (tl "/w3") ⟨none, none⟩).body (tl "status")).isSome = true :=
  C3_response_status_matches_body ⟨none, none⟩ (tl "X")
    (.problem ⟨tl "about:blank", tl "T", 404, none, none, [(tl "status", .num 999)]⟩)
    (tl "/w3") _ rfl

/-- Claim C8: the instance field of the final document always equals
the request path from the context, whatever instance the classifier,
the constructor or a same-named extension entry put there. -/
theorem C8_instance_equals_request_path (opts : Options) (code : Str)
    (e : ErrVal) (path : Str) (r : HResponse)
    (h : unifiedHandle opts code e path = .ok r) :
    jsGet r.body (tl "instance") = .str path := by
  unfold unifiedHandle at h
  rcases hc : classify opts code e path with ex | p
  · rw [hc] at h
    simp [Except.map] at h
  · rw [hc] at h
    simp only [Except.map, Except.ok.injEq] at h
    subst h
    exact finalize_body_instance p path opts

/-- Witness for C8 at a concrete thrown ProblemError that carries both
a constructed instance and an instance extension entry; the request
path still wins. -/
theorem C8_instance_equals_request_path_witness :
    jsGet (finalize ⟨tl "about:blank", tl "T", 404, none, some (tl "/ctor"),
        [(tl "instance", .str (tl "/evil"))]⟩ (tl "/w8") ⟨none, none⟩).body (tl "instance")
      = .str (tl "/w8") :=
  C8_instance_equals_request_path ⟨none, none⟩ (tl "X")
    (.problem ⟨tl "about:blank", tl "T", 404, none, some (tl "/ctor"),
      [(tl "instance", .str (tl "/evil"))]⟩)
    (tl "/w8") _ rfl

/-- Claim C7: during finalization, when typeBaseUrl is configured (a
truthy string option) and the rendered document type is the literal
about:blank or a string containing the httpstatuses.com host, the type
is rewritten to typeBaseUrl, a slash and the document status; when
typeBaseUrl is not configured, or the type is a caller-custom string
matching neither default, the type is left unchanged. -/
theorem C7_typeBaseUrl_rewrite (p : ProblemError) (path : Str) (opts : Options) :
    (∀ b s, opts.typeBaseUrl = some b → b ≠ [] →
      jsGet (docWithInstance p path) (tl "type") = .str s →
      (s = tl "about:blank" ∨ hasSub (tl "httpstatuses.com") s = true) →
      jsGet (finalize p path opts).body (tl "type")
        = .str (b ++ '/' :: jsStringOf (jsGet (docWithInstance p path) (tl "status")))) ∧
    (opts.typeBaseUrl = none →
      jsGet (finalize p path opts).body (tl "type")
        = jsGet (docWithInstance p path) (tl "type")) ∧
    (∀ s, jsGet (docWithInstance p path) (tl "type") = .str s →
      s ≠ tl "about:blank" → hasSub (tl "httpstatuses.com") s = false →
      jsGet (finalize p path opts).body (tl "type")
        = jsGet (docWithInstance p path) (tl "type")) := by
  refine ⟨?_, ?_, ?_⟩
  · intro b s hb hbne hty hdef
    have hcond : (truthyS opts.typeBaseUrl
        && typeIsDefault (jsGet (docWithInstance p path) (tl "type"))) = true := by
      rw [hb, hty]
      simp only [truthyS, typeIsDefault, Bool.and_eq_true]
      constructor
      · simpa using hbne
      · rcases hdef with h | h
        · simp [h]
        · simp [h]
    unfold finalize
    dsimp only
    rw [if_pos hcond]
    rw [hb]
    simp [jsGet, alookup_setKey]
  · intro hb
    have hcond : (truthyS opts.typeBaseUrl
        && typeIsDefault (jsGet (docWithInstance p path) (tl "type"))) = false := by
      rw [hb]
      simp [truthyS]
    unfold finalize
    dsimp only
    rw [if_neg (by simp [hcond])]
  · intro s hty hnab hnhost
    have hcond : (truthyS opts.typeBaseUrl
        && typeIsDefault (jsGet (docWithInstance p path) (tl "type"))) = false := by
      rw [hty]
      simp only [typeIsDefault]
      rw [Bool.and_eq_false_iff]
      right
      simp [hnab, hnhost]
    unfold finalize
    dsimp only
    rw [if_neg (by simp [hcond])]

/-- Witness for C7 at a concrete catalog error and configured base
URL: the default type is rewritten to the base followed by the status,
and with no base configured it stays untouched. -/
theorem C7_typeBaseUrl_rewrite_witness :
    jsGet (finalize (HttpError.NotFound (some (tl "gone")) []) (tl "/w7")
        ⟨some (tl "https://api.x.com/errors"), none⟩).body (tl "type")
      = .str (tl "https://api.x.com/errors/404") ∧
    jsGet (finalize (HttpError.NotFound (some (tl "gone")) []) (tl "/w7")
        ⟨none, none⟩).body (tl "type")
      = .str (tl "https://httpstatuses.com/404") :=
  ⟨(C7_typeBaseUrl_rewrite (HttpError.NotFound (some (tl "gone")) []) (tl "/w7")
      ⟨some (tl "https://api.x.com/errors"), none⟩).1
      (tl "https://api.x.com/errors") (tl "https://httpstatuses.com/404")
      rfl (by decide) rfl (.inr (by decide)),
   (C7_typeBaseUrl_rewrite (HttpError.NotFound (some (tl "gone")) []) (tl "/w7")
      ⟨none, none⟩).2.1 rfl⟩

theorem defaultClassify_problem (code : Str) (q : ProblemError) (path : Str) :
    defaultClassify code (.problem q) path = .ok q := rfl

theorem defaultClassify_isOk (code : Str) (e : ErrVal) (path : Str)
    (hpe : code = tl "PROBLEM_ERROR" → e.isProblem = true) :
    exIsOk (defaultClassify code e path) = true := by
  cases e with
  | problem p => rfl
  | err m a k pr ex =>
    by_cases hc : code = tl "PROBLEM_ERROR"
    · exact absurd (hpe hc) (by simp [ErrVal.isProblem])
    · simp only [defaultClassify]
      split_ifs <;> rfl
  | nonErr v =>
    by_cases hc : code = tl "PROBLEM_ERROR"
    · exact absurd (hpe hc) (by simp [ErrVal.isProblem])
    · simp only [defaultClassify]
      split_ifs <;> rfl

theorem defaultClassify_default (code : Str) (e : ErrVal) (path : Str)
    (hip : e.isProblem = false) (hmem : code ∉ knownCodes) :
    defaultClassify code e path
      = .ok (HttpError.InternalServerError (some (messageOrString e)) []) := by
  simp only [knownCodes, List.mem_cons, List.not_mem_nil, or_false, not_or] at hmem
  obtain ⟨h1, h2, h3, h4, h5⟩ := hmem
  cases e with
  | problem p => simp [ErrVal.isProblem] at hip
  | err m a k pr ex => simp [defaultClassify, h1, h2, h3, h4, h5]
  | nonErr v => simp [defaultClassify, h1, h2, h3, h4, h5]

/-- Claim C1: the unified pipeline selects the ProblemError by a strict
first-match-wins order. Whenever the transform hook returns a
ProblemError instance, that instance is used; otherwise a thrown
ProblemError is used directly; otherwise the framework code is
classified, and any code outside the named enumeration yields
InternalServerError with detail equal to the error message for
Error-like values and the JS string form for all other values. Under
the framework contract that the PROBLEM_ERROR code accompanies only
registered ProblemError instances, and with a transform hook that
returns (the claim describes its return value), classification always
reaches exactly one terminal case. -/
theorem C1_first_match_wins (opts : Options) (code : Str) (e : ErrVal) (path : Str)
    (hpe : code = tl "PROBLEM_ERROR" → e.isProblem = true)
    (htr : ∀ t, opts.transform = some t → exIsOk (t e ⟨path, code, e⟩) = true) :
    exIsOk (classify opts code e path) = true ∧
    (∀ t q, opts.transform = some t → t e ⟨path, code, e⟩ = .ok (some q) →
      classify opts code e path = .ok q) ∧
    (transformNoMatch opts e ⟨path, code, e⟩ → ∀ q, e = .problem q →
      classify opts code e path = .ok q) ∧
    (transformNoMatch opts e ⟨path, code, e⟩ → e.isProblem = false →
      code ∉ knownCodes →
      classify opts code e path
        = .ok (HttpError.InternalServerError (some (messageOrString e)) [])) := by
  rcases hopt : opts.transform with _ | t
  · have hrun : runTransform opts e ⟨path, code, e⟩ = .ok none := by
      simp [runTransform, hopt]
    have hcl : classify opts code e path = defaultClassify code e path := by
      simp [classify, hrun]
    refine ⟨?_, ?_, ?_, ?_⟩
    · rw [hcl]
      exact defaultClassify_isOk code e path hpe
    · intro t q ht
      cases ht
    · intro _ q he
      subst he
      rw [hcl]
      exact defaultClassify_problem code q path
    · intro _ hip hmem
      rw [hcl]
      exact defaultClassify_default code e path hip hmem
  · have htOk := htr t hopt
    have hrun : runTransform opts e ⟨path, code, e⟩ = t e ⟨path, code, e⟩ := by
      simp [runTransform, hopt]
    rcases ht : t e ⟨path, code, e⟩ with ex | r
    · rw [ht] at htOk
      simp [exIsOk] at htOk
    · rcases r with _ | q
      · have hcl : classify opts code e path = defaultClassify code e path := by
          simp [classify, hrun, ht]
        refine ⟨?_, ?_, ?_, ?_⟩
        · rw [hcl]
          exact defaultClassify_isOk code e path hpe
        · intro t' q' ht'
          cases ht'
          rw [ht]
          intro hq
          cases hq
        · intro _ q he
          subst he
          rw [hcl]
          exact defaultClassify_problem code q path
        · intro _ hip hmem
          rw [hcl]
          exact defaultClassify_default code e path hip hmem
      · have hcl : classify opts code e path = .ok q := by
          simp [classify, hrun, ht]
        refine ⟨?_, ?_, ?_, ?_⟩
        · rw [hcl]
          rfl
        · intro t' q' ht' hret
          cases ht'
          rw [ht] at hret
          cases hret
          exact hcl
        · intro hnm
          exfalso
          simp only [transformNoMatch, hopt] at hnm
          rw [ht] at hnm
          cases hnm
        · intro hnm
          exfalso
          simp only [transformNoMatch, hopt] at hnm
          rw [ht] at hnm
          cases hnm

/-- Witness for C1 at a concrete unknown code and non-Error thrown
value, exercising the totality conjunct and the default terminal
case. -/
theorem C1_first_match_wins_witness :
    exIsOk (classify ⟨none, none⟩ (tl "UNKNOWN") (.nonErr (.str (tl "x"))) (tl "/w1")) = true ∧
    classify ⟨none, none⟩ (tl "UNKNOWN") (.nonErr (.str (tl "x"))) (tl "/w1")
      = .ok (HttpError.InternalServerError (some (tl "x")) []) := by
  have h := C1_first_match_wins ⟨none, none⟩ (tl "UNKNOWN") (.nonErr (.str (tl "x"))) (tl "/w1")
    (fun hc => absurd hc (by decide)) (fun t ht => nomatch ht)
  exact ⟨h.1, h.2.2.2 trivial rfl (by decide)⟩

/-- Counterexample to claim C6: with a transform hook that throws, the
unified handler produces no response at all — the exception escapes
instead of falling back to default classification. -/
theorem C6_transform_throw_counterexample :
    exIsOk (unifiedHandle optsBoom (tl "NOT_FOUND") (.nonErr (.str (tl "x"))) (tl "/p"))
      = false := rfl

/-- Claim C6 as amended: the source wraps the transform call in no
try/catch, so when the hook throws, the exception propagates out of
the error handler unchanged; no fallback classification happens and no
problem document is produced. -/
theorem C6_transform_throw_propagates (opts : Options)
    (t : ErrVal → Ctx → Except Val (Option ProblemError))
    (code : Str) (e : ErrVal) (path : Str) (ex : Val)
    (hopt : opts.transform = some t)
    (ht : t e ⟨path, code, e⟩ = .error ex) :
    unifiedHandle opts code e path = .error ex := by
  unfold unifiedHandle classify runTransform
  rw [hopt]
  dsimp only
  rw [ht]
  rfl

/-- Witness for the amended C6 at the concrete throwing hook. -/
theorem C6_transform_throw_propagates_witness :
    unifiedHandle optsBoom (tl "VALIDATION") (.nonErr .null) (tl "/w6")
      = .error (.str (tl "boom")) :=
  C6_transform_throw_propagates optsBoom boomT (tl "VALIDATION") (.nonErr .null)
    (tl "/w6") (.str (tl "boom")) rfl rfl

/-- Counterexample to claim C10: in the unified pipeline (the handler
with the transform hook), an INVALID_FILE_TYPE code does not produce a
BadRequest 400 problem — the switch has no case for it, so the default
branch yields status 500. -/
theorem C10_invalid_file_type_counterexample :
    (unifiedHandle ⟨none, none⟩ (tl "INVALID_FILE_TYPE")
        (.err (tl "bad file") none .undefinedV (.str (tl "file")) (.str (tl "image/png")))
        (tl "/up")).map (fun r => jsGet r.body (tl "status"))
      = .ok (.num 500) ∧ (500 : Int) ≠ 400 := ⟨rfl, by decide⟩

/-- Claim C10 as amended: only the httpProblemJsonPlugin handler maps
an INVALID_FILE_TYPE code to BadRequest 400 with detail equal to the
error message and the property and expected extensions copied from the
error; the unified pipeline, lacking that switch case, classifies the
same input through its default branch as InternalServerError 500 with
detail equal to the error message and no such extensions. -/
theorem C10_invalid_file_type_amended (msg : Str) (all : Option (List VItem))
    (key property expected : Val) (path : Str) :
    httpClassify (tl "INVALID_FILE_TYPE") (.err msg all key property expected) path
      = .ok (HttpError.BadRequest (some msg)
          [(tl "property", property), (tl "expected", expected)]) ∧
    (HttpError.BadRequest (some msg)
      [(tl "property", property), (tl "expected", expected)]).status = 400 ∧
    classify ⟨none, none⟩ (tl "INVALID_FILE_TYPE") (.err msg all key property expected) path
      = .ok (HttpError.InternalServerError (some msg) []) ∧
    (HttpError.InternalServerError (some msg) []).status = 500 :=
  ⟨rfl, rfl, rfl, rfl⟩

/-- Claim C4: isDatabaseError returns true exactly on values of the
described shape; on every other input (null, primitives, plain errors,
objects whose cause lacks a conforming string code) it returns false.
The function is a total Lean function over Val, so the never-throws
part of the claim holds by construction. -/
theorem C4_isDatabaseError_iff (v : Val) :
    isDatabaseError v = true ↔ specDBShape v := by
  cases v with
  | str s =>
    exact iff_of_false (by simp +decide [isDatabaseError, truthy, typeofV])
      (fun h => absurd h.1 (by simp [isObjLike]))
  | num n =>
    exact iff_of_false (by simp +decide [isDatabaseError, truthy, typeofV])
      (fun h => absurd h.1 (by simp [isObjLike]))
  | bool b =>
    exact iff_of_false (by simp +decide [isDatabaseError, truthy, typeofV])
      (fun h => absurd h.1 (by simp [isObjLike]))
  | null =>
    exact iff_of_false (by simp +decide [isDatabaseError, truthy, typeofV])
      (fun h => absurd h.1 (by simp [isObjLike]))
  | undefinedV =>
    exact iff_of_false (by simp +decide [isDatabaseError, truthy, typeofV])
      (fun h => absurd h.1 (by simp [isObjLike]))
  | arr l =>
    exact iff_of_false
      (by simp +decide [isDatabaseError, truthy, typeofV, hasKey, jsProp])
      (fun h => absurd h.2.1 (by simp [jsProp, isObjLike]))
  | obj l =>
    rcases hc : alookup l (tl "cause") with _ | c
    · exact iff_of_false
        (by simp +decide [isDatabaseError, truthy, typeofV, hasKey, jsProp, jsGet, hc])
        (fun h => absurd h.2.1 (by simp [jsProp, jsGet, hc, isObjLike]))
    · cases c with
      | str s =>
        exact iff_of_false
          (by simp +decide [isDatabaseError, truthy, typeofV, hasKey, jsProp, jsGet, hc])
          (fun h => absurd h.2.1 (by simp [jsProp, jsGet, hc, isObjLike]))
      | num n =>
        exact iff_of_false
          (by simp +decide [isDatabaseError, truthy, typeofV, hasKey, jsProp, jsGet, hc])
          (fun h => absurd h.2.1 (by simp [jsProp, jsGet, hc, isObjLike]))
      | bool b =>
        exact iff_of_false
          (by simp +decide [isDatabaseError, truthy, typeofV, hasKey, jsProp, jsGet, hc])
          (fun h => absurd h.2.1 (by simp [jsProp, jsGet, hc, isObjLike]))
      | null =>
        exact iff_of_false
          (by simp +decide [isDatabaseError, truthy, typeofV, hasKey, jsProp, jsGet, hc])
          (fun h => absurd h.2.1 (by simp [jsProp, jsGet, hc, isObjLike]))
      | undefinedV =>
        exact iff_of_false
          (by simp +decide [isDatabaseError, truthy, typeofV, hasKey, jsProp, jsGet, hc])
          (fun h => absurd h.2.1 (by simp [jsProp, jsGet, hc, isObjLike]))
      | arr l2 =>
        refine iff_of_false
          (by simp +decide [isDatabaseError, truthy, typeofV, hasKey, jsProp, jsGet, hc])
          (fun h => ?_)
        obtain ⟨-, -, s, hs, -, -⟩ := h
        rw [jsProp, jsGet, hc] at hs
        exact absurd hs (by simp [jsProp])
      | obj l2 =>
        have hcause : jsProp (Val.obj l) (tl "cause") = Val.obj l2 := by
          simp [jsProp, jsGet, hc]
        rcases hcode : alookup l2 (tl "code") with _ | cv
        · refine iff_of_false
            (by simp +decide [isDatabaseError, truthy, typeofV, hasKey, jsProp, jsGet,
              hc, hcode])
            (fun h => ?_)
          obtain ⟨-, -, s, hs, -, -⟩ := h
          rw [hcause] at hs
          exact absurd hs (by simp [jsProp, jsGet, hcode])
        · have hcodeProp : jsProp (Val.obj l2) (tl "code") = cv := by
            simp [jsProp, jsGet, hcode]
          cases cv with
          | str s =>
            have ha : isDatabaseError (Val.obj l) = codeRegexTest s := by
              rcases s with _ | ⟨ch, st⟩
              · simp +decide [isDatabaseError, truthy, typeofV, hasKey, jsProp,
                  jsGet, hc, hcode, codeRegexTest]
              · simp +decide [isDatabaseError, truthy, typeofV, hasKey, jsProp,
                  jsGet, hc, hcode]
            rw [ha]
            constructor
            · intro h
              rw [codeRegexTest, Bool.and_eq_true, decide_eq_true_iff] at h
              exact ⟨rfl, by rw [hcause]; rfl, s, by rw [hcause]; exact hcodeProp,
                h.1, h.2⟩
            · rintro ⟨-, -, s', hs', hlen5, hall⟩
              rw [hcause, hcodeProp] at hs'
              cases hs'
              rw [codeRegexTest, Bool.and_eq_true, decide_eq_true_iff]
              exact ⟨hlen5, hall⟩
          | num n =>
            refine iff_of_false
              (by simp +decide [isDatabaseError, truthy, typeofV, hasKey, jsProp,
                jsGet, hc, hcode])
              (fun h => ?_)
            obtain ⟨-, -, s, hs, -, -⟩ := h
            rw [hcause, hcodeProp] at hs
            cases hs
          | bool b =>
            refine iff_of_false
              (by simp +decide [isDatabaseError, truthy, typeofV, hasKey, jsProp,
                jsGet, hc, hcode])
              (fun h => ?_)
            obtain ⟨-, -, s, hs, -, -⟩ := h
            rw [hcause, hcodeProp] at hs
            cases hs
          | null =>
            refine iff_of_false
              (by simp +decide [isDatabaseError, truthy, typeofV, hasKey, jsProp,
                jsGet, hc, hcode])
              (fun h => ?_)
            obtain ⟨-, -, s, hs, -, -⟩ := h
            rw [hcause, hcodeProp] at hs
            cases hs
          | undefinedV =>
            refine iff_of_false
              (by simp +decide [isDatabaseError, truthy, typeofV, hasKey, jsProp,
                jsGet, hc, hcode])
              (fun h => ?_)
            obtain ⟨-, -, s, hs, -, -⟩ := h
            rw [hcause, hcodeProp] at hs
            cases hs
          | arr l3 =>
            refine iff_of_false
              (by simp +decide [isDatabaseError, truthy, typeofV, hasKey, jsProp,
                jsGet, hc, hcode])
              (fun h => ?_)
            obtain ⟨-, -, s, hs, -, -⟩ := h
            rw [hcause, hcodeProp] at hs
            cases hs
          | obj l3 =>
            refine iff_of_false
              (by simp +decide [isDatabaseError, truthy, typeofV, hasKey, jsProp,
                jsGet, hc, hcode])
              (fun h => ?_)
            obtain ⟨-, -, s, hs, -, -⟩ := h
            rw [hcause, hcodeProp] at hs
            cases hs

/-- Witness for C4 at a concrete Drizzle-shaped object and at null. -/
theorem C4_isDatabaseError_iff_witness :
    isDatabaseError (.obj [(tl "cause", .obj [(tl "code", .str (tl "23505"))])]) = true ∧
    isDatabaseError .null = false :=
  ⟨(C4_isDatabaseError_iff _).mpr
      ⟨rfl, rfl, tl "23505", rfl, rfl, rfl⟩,
   by
    rcases h : isDatabaseError .null with _ | _
    · rfl
    · exact absurd ((C4_isDatabaseError_iff .null).mp h).1 (by decide)⟩

theorem mapDatabaseError_extensions (e : DrizzleErrorM) :
    (mapDatabaseError e).extensions
      = [(tl "x-pg-code", .str (getPostgresError e).code),
         (tl "x-constraint", .str (getPostgresError e).constraint)] := by
  unfold mapDatabaseError
  dsimp only
  split_ifs <;> rfl

/-- Claim C5: for every value of the classifier shape, the mapper
returns a problem whose status follows the fixed code table, with the
x-pg-code extension equal to the code and the x-constraint extension
equal to the constraint of the wrapped cause; it is a total function,
so an unrecognized code reaches the default branch and never throws. -/
theorem C5_mapDatabaseError_table (e : DrizzleErrorM) :
    (mapDatabaseError e).status = specDbStatus (getPostgresError e).code ∧
    alookup (mapDatabaseError e).extensions (tl "x-pg-code")
      = some (.str (getPostgresError e).code) ∧
    alookup (mapDatabaseError e).extensions (tl "x-constraint")
      = some (.str (getPostgresError e).constraint) := by
  refine ⟨?_, ?_, ?_⟩
  · unfold mapDatabaseError specDbStatus getPostgresError
    dsimp only
    split_ifs <;> simp_all +decide [HttpError.BadRequest, HttpError.Conflict,
      HttpError.ServiceUnavailable, HttpError.InternalServerError]
  · rw [mapDatabaseError_extensions]
    rfl
  · rw [mapDatabaseError_extensions]
    simp +decide [alookup]

theorem endsW_append_ne (x : Str) {s t : Str} {a b : Char} {as bs : Str}
    (hs : s.reverse = a :: as) (ht : t.reverse = b :: bs) (hne : b ≠ a) :
    endsW (x ++ s) t = false := by
  unfold endsW
  rw [List.reverse_append, hs, ht]
  simp [List.cons_append, isPre, hne]

/-- Claim C9 (amended): for every constraint name, the phrase carries
the must-be-unique suffix exactly when the name contains the _key
substring (tested first), the must-reference-a-valid-record suffix
exactly when it contains _fkey but not _key, and otherwise reads
constraint-violated-on around the derived field; the empty name yields
the generic phrase, and a nonempty name never does. In each branch the
field is prettyOrRaw of the name: the group captured by the leftmost
underscore-led match, with one trailing _key, _idx or _fkey suffix
stripped when a nonempty word-character run precedes it, underscores
turned to spaces and the words title-cased, falling back to the raw
name when nothing is captured. -/
theorem C9_parseConstraint_phrases (c : Str) :
    (parseConstraint c = tl "违反数据库约束" ↔ c = []) ∧
    (endsW (parseConstraint c) (tl " 必须唯一") = true ↔
      (c ≠ [] ∧ hasSub (tl "_key") c = true)) ∧
    (endsW (parseConstraint c) (tl " 必须引用有效记录") = true ↔
      (c ≠ [] ∧ hasSub (tl "_key") c = false ∧ hasSub (tl "_fkey") c = true)) ∧
    (c ≠ [] → hasSub (tl "_key") c = true →
      parseConstraint c = prettyOrRaw c ++ tl " 必须唯一") ∧
    (c ≠ [] → hasSub (tl "_key") c = false → hasSub (tl "_fkey") c = true →
      parseConstraint c = prettyOrRaw c ++ tl " 必须引用有效记录") ∧
    (c ≠ [] → hasSub (tl "_key") c = false → hasSub (tl "_fkey") c = false →
      parseConstraint c = tl "在 " ++ prettyOrRaw c ++ tl " 上违反约束") := by
  by_cases he : c = []
  · subst he
    decide
  · have hie : c.isEmpty = false := by
      rcases c with _ | ⟨a, c'⟩
      · exact absurd rfl he
      · rfl
    by_cases hkey : hasSub (tl "_key") c = true
    · have hbr : parseConstraint c = prettyOrRaw c ++ tl " 必须唯一" := by
        simp [parseConstraint, hie, hkey]
      refine ⟨?_, ?_, ?_, ?_, ?_, ?_⟩
      · refine iff_of_false (fun heq => ?_) he
        have h1 := endsW_append_self (prettyOrRaw c) (tl " 必须唯一")
        rw [← hbr, heq] at h1
        exact absurd h1 (by decide)
      · refine iff_of_true ?_ ⟨he, hkey⟩
        rw [hbr]
        exact endsW_append_self _ _
      · refine iff_of_false ?_ (fun h => ?_)
        · rw [hbr]
          rw [endsW_append_ne (prettyOrRaw c) (by decide : (tl " 必须唯一").reverse = '一' :: tl "唯须必 ") (by decide : (tl " 必须引用有效记录").reverse = '录' :: tl "记效有用引须必 ") (by decide)]
          simp
        · rw [hkey] at h
          cases h.2.1
      · intro _ _
        exact hbr
      · intro _ hkf _
        rw [hkey] at hkf
        cases hkf
      · intro _ hkf _
        rw [hkey] at hkf
        cases hkf
    · rw [Bool.not_eq_true] at hkey
      by_cases hfk : hasSub (tl "_fkey") c = true
      · have hbr : parseConstraint c = prettyOrRaw c ++ tl " 必须引用有效记录" := by
          simp [parseConstraint, hie, hkey, hfk]
        refine ⟨?_, ?_, ?_, ?_, ?_, ?_⟩
        · refine iff_of_false (fun heq => ?_) he
          have h1 := endsW_append_self (prettyOrRaw c) (tl " 必须引用有效记录")
          rw [← hbr, heq] at h1
          exact absurd h1 (by decide)
        · refine iff_of_false ?_ (fun h => ?_)
          · rw [hbr]
            rw [endsW_append_ne (prettyOrRaw c) (by decide : (tl " 必须引用有效记录").reverse = '录' :: tl "记效有用引须必 ") (by decide : (tl " 必须唯一").reverse = '一' :: tl "唯须必 ") (by decide)]
            simp
          · rw [hkey] at h
            cases h.2
        · refine iff_of_true ?_ ⟨he, hkey, hfk⟩
          rw [hbr]
          exact endsW_append_self _ _
        · intro _ hk
          rw [hkey] at hk
          cases hk
        · intro _ _ _
          exact hbr
        · intro _ _ hf
          rw [hfk] at hf
          cases hf
      · rw [Bool.not_eq_true] at hfk
        have hbr : parseConstraint c = tl "在 " ++ prettyOrRaw c ++ tl " 上违反约束" := by
          simp [parseConstraint, hie, hkey, hfk]
        refine ⟨?_, ?_, ?_, ?_, ?_, ?_⟩
        · refine iff_of_false (fun heq => ?_) he
          have h1 := endsW_append_self (tl "在 " ++ prettyOrRaw c) (tl " 上违反约束")
          rw [← hbr, heq] at h1
          exact absurd h1 (by decide)
        · refine iff_of_false ?_ (fun h => ?_)
          · rw [hbr]
            rw [endsW_append_ne (tl "在 " ++ prettyOrRaw c) (by decide : (tl " 上违反约束").reverse = '束' :: tl "约反违上 ") (by decide : (tl " 必须唯一").reverse = '一' :: tl "唯须必 ") (by decide)]
            simp
          · rw [hkey] at h
            cases h.2
        · refine iff_of_false ?_ (fun h => ?_)
          · rw [hbr]
            rw [endsW_append_ne (tl "在 " ++ prettyOrRaw c) (by decide : (tl " 上违反约束").reverse = '束' :: tl "约反违上 ") (by decide : (tl " 必须引用有效记录").reverse = '录' :: tl "记效有用引须必 ") (by decide)]
            simp
          · rw [hfk] at h
            cases h.2.2
        · intro _ hk
          rw [hkey] at hk
          cases hk
        · intro _ _ hf
          rw [hfk] at hf
          cases hf
        · intro _ _ _
          exact hbr

/-- Counterexample to claim C9 as frozen: the constraint a_key_idx does
not end in _key, yet parseConstraint appends the must-be-unique phrase,
because the source tests substring containment, not suffixes. -/
theorem C9_parseConstraint_counterexample :
    parseConstraint (tl "a_key_idx") = tl "Key 必须唯一" ∧
    endsW (tl "a_key_idx") (tl "_key") = false ∧
    endsW (parseConstraint (tl "a_key_idx")) (tl " 必须唯一") = true := by
  decide

/-- Witness for the amended C9 at concrete names in all three phrase
branches and at the empty name. -/
theorem C9_parseConstraint_phrases_witness :
    parseConstraint (tl "users_email_key")
      = prettyOrRaw (tl "users_email_key") ++ tl " 必须唯一" ∧
    parseConstraint (tl "orders_user_id_fkey")
      = prettyOrRaw (tl "orders_user_id_fkey") ++ tl " 必须引用有效记录" ∧
    parseConstraint (tl "users_email_unique")
      = tl "在 " ++ prettyOrRaw (tl "users_email_unique") ++ tl " 上违反约束" ∧
    parseConstraint [] = tl "违反数据库约束" :=
  ⟨(C9_parseConstraint_phrases (tl "users_email_key")).2.2.2.1 (by decide) (by decide),
   (C9_parseConstraint_phrases (tl "orders_user_id_fkey")).2.2.2.2.1 (by decide)
     (by decide) (by decide),
   (C9_parseConstraint_phrases (tl "users_email_unique")).2.2.2.2.2 (by decide)
     (by decide) (by decide),
   (C9_parseConstraint_phrases []).1.mpr rfl⟩
